import Mathlib

/-!
Verification of the cosine-similarity plagiarism checker (`main.py`).

The core of the program is:
- `preprocess_text`: strips punctuation with `re.sub(r'[^\w\s]', '', text)`
  and segments the cleaned text into word tokens with `jieba.cut`;
- `calculate_cosine_similarity`: cosine similarity of two token-frequency
  dictionaries over the union vocabulary, with a zero-magnitude guard;
- `calculate_similarity`: tokenizes both documents, counts token
  frequencies with `Counter`, and calls the cosine computation.

Python dictionaries mapping tokens to integer counts are embedded as a
finite key set together with a count function; Python float arithmetic is
embedded as exact real arithmetic (`math.sqrt` becomes `Real.sqrt`).
-/

namespace PlagiarismCheck

/-- A Python dict mapping token strings to integer counts: a finite set of
keys together with the count stored at each key. -/
structure FreqVec where
  keys : Finset String
  count : String → ℤ

/-- `vec.get(word, 0)`: the stored count when the key is present, else 0. -/
def FreqVec.get (v : FreqVec) (w : String) : ℤ :=
  if w ∈ v.keys then v.count w else 0

/-- `all_words = set(vec1.keys()).union(set(vec2.keys()))` (line 58). -/
def all_words (v1 v2 : FreqVec) : Finset String :=
  v1.keys ∪ v2.keys

/-- `dot_product = sum(v1 * v2 for v1, v2 in zip(vector1, vector2))`
(line 65), where `vector i` enumerates `vec i.get(word, 0)` over
`all_words`. -/
def dot_product (v1 v2 : FreqVec) : ℤ :=
  ∑ w ∈ all_words v1 v2, v1.get w * v2.get w

/-- `sum(v * v for v in vector)`: the sum of squared entries of the vector
built from `v` over the vocabulary `vocab`. -/
def sum_sq (vocab : Finset String) (v : FreqVec) : ℤ :=
  ∑ w ∈ vocab, v.get w * v.get w

/-- `magnitude = math.sqrt(sum(v * v for v in vector))` (lines 68-69). -/
noncomputable def magnitude (vocab : Finset String) (v : FreqVec) : ℝ :=
  Real.sqrt ((sum_sq vocab v : ℤ) : ℝ)

open Classical in
/-- `calculate_cosine_similarity(vec1, vec2)` (lines 47-76): dot product
over the union vocabulary divided by the product of the two Euclidean
magnitudes, returning `0.0` when either magnitude is zero. -/
noncomputable def calculate_cosine_similarity (v1 v2 : FreqVec) : ℝ :=
  if magnitude (all_words v1 v2) v1 = 0 ∨ magnitude (all_words v1 v2) v2 = 0 then 0
  else ((dot_product v1 v2 : ℤ) : ℝ) /
    (magnitude (all_words v1 v2) v1 * magnitude (all_words v1 v2) v2)

/-- `re.sub(r'[^\w\s]', '', text)` (line 40): the character class matches
one character that is neither a word character nor whitespace, and every
match is replaced by the empty string, so the substitution keeps exactly
the word characters and whitespace characters, in order.  The Unicode
classes `\w` and `\s` are abstracted as the predicates `isWord` and
`isSpace`. -/
def strip_punct (isWord isSpace : Char → Bool) (text : String) : String :=
  String.mk (text.data.filter (fun c => isWord c || isSpace c))

/-- Modelled from the spec: the word-segmentation capability.  The `jieba`
library used at line 42 is a third-party dependency whose source is not
part of this repository; spec 4.1 requires segmentation to be a fixed
deterministic function of the input text whose output on empty input is
the empty token sequence. -/
structure Segmenter where
  cut : String → List String
  cut_empty : cut "" = []

/-- `preprocess_text(text)` (lines 31-44): strip punctuation, then segment
the cleaned text into a list of word tokens. -/
def preprocess_text (isWord isSpace : Char → Bool) (seg : Segmenter)
    (text : String) : List String :=
  seg.cut (strip_punct isWord isSpace text)

/-- `Counter(words)` (lines 113-114): the frequency dict whose keys are
the distinct elements of the list and whose count at each key is the
number of occurrences in the list. -/
def counter (words : List String) : FreqVec :=
  ⟨words.toFinset, fun w => (words.count w : ℤ)⟩

/-- `calculate_similarity(original_text, copied_text)` (lines 98-118):
tokenize both documents, count token frequencies, and compute the cosine
similarity of the two frequency dicts. -/
noncomputable def calculate_similarity (isWord isSpace : Char → Bool)
    (seg : Segmenter) (original_text copied_text : String) : ℝ :=
  calculate_cosine_similarity
    (counter (preprocess_text isWord isSpace seg original_text))
    (counter (preprocess_text isWord isSpace seg copied_text))

/-- The formula as the spec words it: dot product over the union
vocabulary, divided by the product of the Euclidean norms of the two
vectors (square root of the sum of squares of each vector's own
entries). -/
noncomputable def cosine_formula_spec (v1 v2 : FreqVec) : ℝ :=
  ((dot_product v1 v2 : ℤ) : ℝ) /
    (Real.sqrt ((∑ w ∈ v1.keys, v1.count w * v1.count w : ℤ) : ℝ) *
     Real.sqrt ((∑ w ∈ v2.keys, v2.count w * v2.count w : ℤ) : ℝ))

/-! Helper lemmas shared by the claim theorems. -/

lemma sum_sq_nonneg (vocab : Finset String) (v : FreqVec) : 0 ≤ sum_sq vocab v :=
  Finset.sum_nonneg fun w _ => mul_self_nonneg (v.get w)

lemma magnitude_eq_zero_iff (vocab : Finset String) (v : FreqVec) :
    magnitude vocab v = 0 ↔ sum_sq vocab v = 0 := by
  unfold magnitude
  rw [Real.sqrt_eq_zero (by exact_mod_cast sum_sq_nonneg vocab v)]
  exact_mod_cast Iff.rfl

lemma get_eq_zero_of_not_mem {v : FreqVec} {w : String} (h : w ∉ v.keys) :
    v.get w = 0 := by
  simp [FreqVec.get, h]

lemma get_eq_count_of_mem {v : FreqVec} {w : String} (h : w ∈ v.keys) :
    v.get w = v.count w := by
  simp [FreqVec.get, h]

lemma sum_sq_subset {v : FreqVec} {vocab : Finset String} (h : v.keys ⊆ vocab) :
    sum_sq vocab v = ∑ w ∈ v.keys, v.count w * v.count w := by
  unfold sum_sq
  rw [← Finset.sum_subset h (fun w _ hw => by rw [get_eq_zero_of_not_mem hw, mul_zero])]
  exact Finset.sum_congr rfl fun w hw => by rw [get_eq_count_of_mem hw]

lemma get_nonneg {v : FreqVec} (h : ∀ w ∈ v.keys, 0 ≤ v.count w) (w : String) :
    0 ≤ v.get w := by
  unfold FreqVec.get
  split
  · exact h w (by assumption)
  · exact le_refl 0

/-- **C2.** If either magnitude is zero, `calculate_cosine_similarity`
returns 0.0 without dividing by zero; consequently `calculate_similarity`
is total and returns 0.0 whenever one of the documents tokenizes to no
recognized words (in particular on empty strings). -/
theorem zero_magnitude_returns_zero (v1 v2 : FreqVec)
    (isWord isSpace : Char → Bool) (seg : Segmenter) (a b : String)
    (hm : magnitude (all_words v1 v2) v1 = 0 ∨ magnitude (all_words v1 v2) v2 = 0)
    (ha : preprocess_text isWord isSpace seg a = []) :
    calculate_cosine_similarity v1 v2 = 0 ∧
      calculate_similarity isWord isSpace seg a b = 0 := by
  constructor
  · unfold calculate_cosine_similarity
    rw [if_pos hm]
  · unfold calculate_similarity calculate_cosine_similarity
    rw [if_pos]
    left
    rw [magnitude_eq_zero_iff]
    apply Finset.sum_eq_zero
    intro w _
    have hk : w ∉ (counter (preprocess_text isWord isSpace seg a)).keys := by
      rw [ha]
      simp [counter]
    rw [get_eq_zero_of_not_mem hk, mul_zero]

/-- **C3.** Cosine similarity is symmetric in its two arguments. -/
theorem cosine_similarity_symm (v1 v2 : FreqVec) :
    calculate_cosine_similarity v1 v2 = calculate_cosine_similarity v2 v1 := by
  have hw : all_words v2 v1 = all_words v1 v2 := Finset.union_comm _ _
  have hd : dot_product v2 v1 = dot_product v1 v2 := by
    unfold dot_product
    rw [hw]
    exact Finset.sum_congr rfl fun w _ => mul_comm _ _
  unfold calculate_cosine_similarity
  rw [hw, hd]
  by_cases h : magnitude (all_words v1 v2) v1 = 0 ∨ magnitude (all_words v1 v2) v2 = 0
  · rw [if_pos h, if_pos (Or.symm h)]
  · rw [if_neg h, if_neg (fun hc => h (Or.symm hc)), mul_comm]

/-- **C6.** If the key sets are disjoint, cosine similarity is 0.0. -/
theorem cosine_similarity_orthogonal (v1 v2 : FreqVec)
    (h : Disjoint v1.keys v2.keys) :
    calculate_cosine_similarity v1 v2 = 0 := by
  have hd : dot_product v1 v2 = 0 := by
    apply Finset.sum_eq_zero
    intro w _
    by_cases h1 : w ∈ v1.keys
    · rw [get_eq_zero_of_not_mem (Finset.disjoint_left.mp h h1), mul_zero]
    · rw [get_eq_zero_of_not_mem h1, zero_mul]
  unfold calculate_cosine_similarity
  by_cases hm : magnitude (all_words v1 v2) v1 = 0 ∨ magnitude (all_words v1 v2) v2 = 0
  · rw [if_pos hm]
  · rw [if_neg hm, hd]
    simp

/-- **C8.** `preprocess_text` on the empty string returns the empty token
list (and, by its type, always returns a list of token strings). -/
theorem preprocess_text_empty (isWord isSpace : Char → Bool) (seg : Segmenter) :
    preprocess_text isWord isSpace seg "" = [] := by
  unfold preprocess_text strip_punct
  exact seg.cut_empty

/-- **C9.** Determinism: equal input texts always yield the same token
sequence, and equal document pairs always yield the same similarity score;
the embedded core has no mutable state. -/
theorem core_deterministic (isWord isSpace : Char → Bool) (seg : Segmenter)
    (t1 t2 a1 a2 b1 b2 : String) (ht : t1 = t2) (ha : a1 = a2) (hb : b1 = b2) :
    preprocess_text isWord isSpace seg t1 = preprocess_text isWord isSpace seg t2 ∧
      calculate_similarity isWord isSpace seg a1 b1 =
        calculate_similarity isWord isSpace seg a2 b2 := by
  subst ht ha hb
  exact ⟨rfl, rfl⟩

/-- **C10.** The frequency mapping `calculate_similarity` builds via
`Counter` maps every key to a strictly positive count, so its entries are
non-negative everywhere. -/
theorem counter_counts_positive (isWord isSpace : Char → Bool) (seg : Segmenter)
    (text : String) :
    (∀ w ∈ (counter (preprocess_text isWord isSpace seg text)).keys,
        0 < (counter (preprocess_text isWord isSpace seg text)).count w) ∧
      (∀ w, 0 ≤ (counter (preprocess_text isWord isSpace seg text)).get w) := by
  constructor
  · intro w hw
    have hmem : w ∈ preprocess_text isWord isSpace seg text :=
      List.mem_toFinset.mp hw
    have hc : 0 < (preprocess_text isWord isSpace seg text).count w :=
      List.count_pos_iff.mpr hmem
    show (0 : ℤ) < ((preprocess_text isWord isSpace seg text).count w : ℤ)
    exact_mod_cast hc
  · intro w
    unfold counter FreqVec.get
    split
    · show (0 : ℤ) ≤ ((preprocess_text isWord isSpace seg text).count w : ℤ)
      exact Int.natCast_nonneg _
    · exact le_refl 0

lemma magnitude_eq_sqrt_sq (vocab : Finset String) (v : FreqVec) :
    magnitude vocab v = Real.sqrt (∑ w ∈ vocab, ((v.get w : ℤ) : ℝ) ^ 2) := by
  unfold magnitude sum_sq
  congr 1
  push_cast
  exact Finset.sum_congr rfl fun w _ => (pow_two _).symm

lemma magnitude_nonneg (vocab : Finset String) (v : FreqVec) :
    0 ≤ magnitude vocab v :=
  Real.sqrt_nonneg _

/-- **C1.** With a shared key and non-zero magnitudes, the result is the
dot product over the union vocabulary divided by the product of the two
Euclidean norms, exactly as the spec words it. -/
theorem cosine_similarity_formula (v1 v2 : FreqVec)
    (_hshared : (v1.keys ∩ v2.keys).Nonempty)
    (h1 : magnitude (all_words v1 v2) v1 ≠ 0)
    (h2 : magnitude (all_words v1 v2) v2 ≠ 0) :
    calculate_cosine_similarity v1 v2 = cosine_formula_spec v1 v2 := by
  have e1 : magnitude (all_words v1 v2) v1 =
      Real.sqrt ((∑ w ∈ v1.keys, v1.count w * v1.count w : ℤ) : ℝ) := by
    unfold magnitude all_words
    rw [sum_sq_subset Finset.subset_union_left]
  have e2 : magnitude (all_words v1 v2) v2 =
      Real.sqrt ((∑ w ∈ v2.keys, v2.count w * v2.count w : ℤ) : ℝ) := by
    unfold magnitude all_words
    rw [sum_sq_subset Finset.subset_union_right]
  unfold calculate_cosine_similarity cosine_formula_spec
  rw [if_neg (not_or.mpr ⟨h1, h2⟩), e1, e2]

/-- **C4.** For non-negative counts the similarity lies in `[0, 1]`. -/
theorem cosine_similarity_bounded (v1 v2 : FreqVec)
    (h1 : ∀ w ∈ v1.keys, 0 ≤ v1.count w) (h2 : ∀ w ∈ v2.keys, 0 ≤ v2.count w) :
    0 ≤ calculate_cosine_similarity v1 v2 ∧ calculate_cosine_similarity v1 v2 ≤ 1 := by
  unfold calculate_cosine_similarity
  by_cases hm : magnitude (all_words v1 v2) v1 = 0 ∨ magnitude (all_words v1 v2) v2 = 0
  · rw [if_pos hm]
    exact ⟨le_refl 0, zero_le_one⟩
  · rw [if_neg hm]
    push_neg at hm
    obtain ⟨hm1, hm2⟩ := hm
    have hpos1 : 0 < magnitude (all_words v1 v2) v1 :=
      lt_of_le_of_ne (magnitude_nonneg _ _) (Ne.symm hm1)
    have hpos2 : 0 < magnitude (all_words v1 v2) v2 :=
      lt_of_le_of_ne (magnitude_nonneg _ _) (Ne.symm hm2)
    have hdotZ : 0 ≤ dot_product v1 v2 :=
      Finset.sum_nonneg fun w _ => mul_nonneg (get_nonneg h1 w) (get_nonneg h2 w)
    have hdot : 0 ≤ ((dot_product v1 v2 : ℤ) : ℝ) := by exact_mod_cast hdotZ
    refine ⟨div_nonneg hdot (le_of_lt (mul_pos hpos1 hpos2)), ?_⟩
    rw [div_le_one (mul_pos hpos1 hpos2)]
    calc ((dot_product v1 v2 : ℤ) : ℝ)
        = ∑ w ∈ all_words v1 v2, ((v1.get w : ℤ) : ℝ) * ((v2.get w : ℤ) : ℝ) := by
          unfold dot_product
          push_cast
          rfl
      _ ≤ Real.sqrt (∑ w ∈ all_words v1 v2, ((v1.get w : ℤ) : ℝ) ^ 2) *
            Real.sqrt (∑ w ∈ all_words v1 v2, ((v2.get w : ℤ) : ℝ) ^ 2) :=
          Real.sum_mul_le_sqrt_mul_sqrt _ _ _
      _ = magnitude (all_words v1 v2) v1 * magnitude (all_words v1 v2) v2 := by
          rw [magnitude_eq_sqrt_sq, magnitude_eq_sqrt_sq]

/-- **C5.** A non-empty mapping with positive counts has similarity
exactly 1 with itself (the float computation is embedded exactly, so the
tolerance collapses to equality). -/
theorem cosine_similarity_self (v : FreqVec) (hne : v.keys.Nonempty)
    (hpos : ∀ w ∈ v.keys, 0 < v.count w) :
    calculate_cosine_similarity v v = 1 := by
  have hW : all_words v v = v.keys := Finset.union_self _
  have hsq : 0 < sum_sq (all_words v v) v := by
    rw [hW, sum_sq_subset (Finset.Subset.refl _)]
    exact Finset.sum_pos (fun w hw => mul_pos (hpos w hw) (hpos w hw)) hne
  have hm : magnitude (all_words v v) v ≠ 0 := by
    rw [ne_eq, magnitude_eq_zero_iff]
    exact ne_of_gt hsq
  unfold calculate_cosine_similarity
  rw [if_neg (not_or.mpr ⟨hm, hm⟩)]
  have hd : dot_product v v = sum_sq (all_words v v) v := rfl
  unfold magnitude
  rw [hd, Real.mul_self_sqrt (by exact_mod_cast le_of_lt hsq)]
  exact div_self (by exact_mod_cast ne_of_gt hsq)

/-- **C7.** The first step of `preprocess_text` keeps exactly the word
characters and whitespace characters (at their full multiplicity, in their
original order) and removes every other character, before segmentation is
applied to the result. -/
theorem strip_punct_exact (isWord isSpace : Char → Bool) (text : String)
    (c : Char) (seg : Segmenter) :
    ((strip_punct isWord isSpace text).data.count c =
        if isWord c || isSpace c then text.data.count c else 0) ∧
      (strip_punct isWord isSpace text).data.Sublist text.data ∧
      preprocess_text isWord isSpace seg text =
        seg.cut (strip_punct isWord isSpace text) := by
  refine ⟨?_, List.filter_sublist _, rfl⟩
  unfold strip_punct
  by_cases hc : isWord c || isSpace c
  · rw [if_pos hc]
    exact List.count_filter hc
  · rw [if_neg hc]
    rw [List.count_eq_zero]
    intro hmem
    have hmem2 : c ∈ List.filter (fun c => isWord c || isSpace c) text.data := hmem
    rw [List.mem_filter] at hmem2
    exact hc hmem2.2

/-! Concrete inputs used by the witnesses: the worked example of the spec,
`A = {西区:1, 共享:1, 食堂:1}` and `B = {西区:1, 共享:1, 吃饭:1}`, and a
trivial segmenter instance. -/

def exA : FreqVec := ⟨{"西区", "共享", "食堂"}, fun _ => 1⟩

def exB : FreqVec := ⟨{"西区", "共享", "吃饭"}, fun _ => 1⟩

def exSeg : Segmenter := ⟨fun s => if s = "" then [] else ["票"], by simp⟩

def exC : FreqVec := ⟨{"早"}, fun _ => 2⟩

/-- Witness for C1 at the spec's worked example: the similarity of
`A = {西区:1, 共享:1, 食堂:1}` and `B = {西区:1, 共享:1, 吃饭:1}` is `2/3`. -/
theorem cosine_similarity_formula_witness :
    (exA.keys ∩ exB.keys).Nonempty ∧ calculate_cosine_similarity exA exB = 2 / 3 := by
  have hsh : (exA.keys ∩ exB.keys).Nonempty := by decide
  have h1 : magnitude (all_words exA exB) exA ≠ 0 := by
    rw [ne_eq, magnitude_eq_zero_iff]
    decide
  have h2 : magnitude (all_words exA exB) exB ≠ 0 := by
    rw [ne_eq, magnitude_eq_zero_iff]
    decide
  refine ⟨hsh, ?_⟩
  rw [cosine_similarity_formula exA exB hsh h1 h2]
  unfold cosine_formula_spec
  have hd : dot_product exA exB = 2 := by decide
  have hA : (∑ w ∈ exA.keys, exA.count w * exA.count w) = 3 := by decide
  have hB : (∑ w ∈ exB.keys, exB.count w * exB.count w) = 3 := by decide
  rw [hd, hA, hB]
  norm_num

/-- Witness for C2: an empty frequency dict against `B` yields 0, and the
orchestrated similarity of an empty document against another is 0. -/
theorem zero_magnitude_returns_zero_witness :
    calculate_cosine_similarity (counter []) exB = 0 ∧
      calculate_similarity (fun _ => true) (fun _ => true) exSeg "" "吃" = 0 := by
  have hm : magnitude (all_words (counter []) exB) (counter []) = 0 := by
    rw [magnitude_eq_zero_iff]
    decide
  have ha : preprocess_text (fun _ => true) (fun _ => true) exSeg "" = [] := by decide
  exact zero_magnitude_returns_zero (counter []) exB (fun _ => true) (fun _ => true)
    exSeg "" "吃" (Or.inl hm) ha

/-- Witness for C3 at the spec's worked example. -/
theorem cosine_similarity_symm_witness :
    calculate_cosine_similarity exA exB = calculate_cosine_similarity exB exA :=
  cosine_similarity_symm exA exB

/-- Witness for C4 at the spec's worked example. -/
theorem cosine_similarity_bounded_witness :
    0 ≤ calculate_cosine_similarity exA exB ∧ calculate_cosine_similarity exA exB ≤ 1 :=
  cosine_similarity_bounded exA exB (by decide) (by decide)

/-- Witness for C5: `A` compared with itself gives exactly 1. -/
theorem cosine_similarity_self_witness :
    calculate_cosine_similarity exA exA = 1 :=
  cosine_similarity_self exA (by decide) (by decide)

/-- Witness for C6 at two dicts with disjoint key sets. -/
theorem cosine_similarity_orthogonal_witness :
    calculate_cosine_similarity exA exC = 0 :=
  cosine_similarity_orthogonal exA exC (Finset.disjoint_left.mpr (by decide))

/-- Witness for C7: the comma of `"ab, cd"` is removed by the stripping
step. -/
theorem strip_punct_exact_witness :
    (strip_punct (fun c => c.isAlphanum) (fun c => c == ' ') "ab, cd").data.count
      (Char.ofNat 44) = 0 := by
  have h := (strip_punct_exact (fun c => c.isAlphanum) (fun c => c == ' ')
    "ab, cd" (Char.ofNat 44) exSeg).1
  rw [h]
  decide

/-- Witness for C8 at a concrete segmenter. -/
theorem preprocess_text_empty_witness :
    preprocess_text (fun _ => true) (fun _ => false) exSeg "" = [] :=
  preprocess_text_empty (fun _ => true) (fun _ => false) exSeg

/-- Witness for C9 at concrete equal inputs. -/
theorem core_deterministic_witness :
    preprocess_text (fun _ => true) (fun _ => true) exSeg "吃" =
        preprocess_text (fun _ => true) (fun _ => true) exSeg "吃" ∧
      calculate_similarity (fun _ => true) (fun _ => true) exSeg "吃" "票" =
        calculate_similarity (fun _ => true) (fun _ => true) exSeg "吃" "票" :=
  core_deterministic (fun _ => true) (fun _ => true) exSeg "吃" "吃" "吃" "吃" "票" "票"
    rfl rfl rfl

/-- Witness for C10: the count stored for the token produced from a
concrete document is strictly positive. -/
theorem counter_counts_positive_witness :
    0 < (counter (preprocess_text (fun _ => true) (fun _ => true) exSeg "吃")).count "票" := by
  have h := (counter_counts_positive (fun _ => true) (fun _ => true) exSeg "吃").1
  exact h "票" (by decide)

end PlagiarismCheck
